import Mathlib

/-!
# Verification of the event-lifecycle orchestration engine

Shallow embedding of the calendar event-lifecycle service:
the conflict detector (`app/services/conflicts.py`), the recurrence
compiler/expander (`app/services/recurrence.py`), the reminder scheduler
(`app/services/reminders.py`), the parser's ambiguity production
(`app/services/parser.py`), the in-memory repositories
(`app/repos/memory.py`), the domain-event handlers
(`app/domain/handlers.py`) wired to the synchronous bus, and the
confirm-proposal route (`app/main.py`).

Timestamps (`datetime`, UTC, minute precision in every code path that the
engine decides on) are modelled as `Int` minutes since the Unix epoch.
Entity ids (`uuid4` strings in the source) are modelled as `Nat` drawn from
a fresh-id supply threaded through the system state; where the source
renders an id into text (conflict descriptions) the model renders the
`Nat` with `toString`.
-/

namespace EventLifecycle

/-- `EventStatus` from `app/domain/models.py`. -/
inductive EventStatus where
  | draft
  | confirmed
  | conflicted
  | cancelled
  | reminded
  deriving Repr, DecidableEq

/-- `TimelineEntryType` from `app/domain/models.py`. -/
inductive TimelineEntryType where
  | created
  | reminder_scheduled
  | conflict_detected
  | shared
  | confirmed
  | reminder_sent
  | rejected
  deriving Repr, DecidableEq

/-- `ParseResponseStatus` from `app/domain/models.py`. -/
inductive ParseResponseStatus where
  | pending
  | confirmed
  | rejected
  deriving Repr, DecidableEq

/-- The `Event` pydantic model from `app/domain/models.py`.

The source's `@model_validator` enforces `end_time > start_time` at
construction time; in the model this is a precondition carried by the
theorems that need it.  Note the field names: the model has
`parent_event_id` and `status` — it has **no** `parent_id` and **no**
`is_confirmed` field (those names appear only at two call sites that pass
them as keyword arguments, which pydantic v2 silently drops on
construction and which raise `AttributeError` on read). -/
structure Event where
  id : Nat
  title : String
  start_time : Int
  end_time : Int
  location : Option String := none
  notes : Option String := none
  created_at : Int := 0
  status : EventStatus := .draft
  was_shared : Bool := false
  reminders_scheduled : Bool := false
  reminder_last_sent_at : Option Int := none
  last_reminder_sent_id : Option Nat := none
  parent_event_id : Option Nat := none
  proposed_event_id : Option Nat := none
  recurrence_rule : Option String := none
  recurrence_end : Option Int := none
  deriving Repr, DecidableEq

/-- `ProposedEvent` from `app/domain/models.py` (validator `end > start`
is again a construction-time precondition). -/
structure ProposedEvent where
  title : String
  start_time : Int
  end_time : Int
  location : Option String := none
  notes : Option String := none
  recurrence_description : Option String := none
  begin_recurrence : Option Int := none
  end_recurrence_description : Option String := none
  deriving Repr, DecidableEq

/-- `Ambiguity` from `app/domain/models.py`. -/
structure Ambiguity where
  field : String
  reason : String
  options : List String := []
  deriving Repr, DecidableEq

/-- `ParseResponse` from `app/domain/models.py`. -/
structure ParseResponse where
  id : Nat
  status : ParseResponseStatus := .pending
  proposed_event : ProposedEvent
  ambiguities : List Ambiguity := []
  conflicts : List String := []
  event_id : Option Nat := none
  deriving Repr, DecidableEq

/-- `ReminderPreference` from `app/domain/models.py` (pydantic validates
`offset_minutes > 0`; a precondition for the handler theorems, per the
engine's documented contract that non-positive offsets never reach it). -/
structure ReminderPreference where
  id : Nat
  event_id : Nat
  offset_minutes : Int
  channel : String := "log"
  target : Option String := none
  deriving Repr, DecidableEq

/-- `ReminderScheduleItem` from `app/domain/models.py`. -/
structure ReminderScheduleItem where
  id : Nat
  event_id : Nat
  preference_id : Nat
  trigger_time : Int
  channel : String
  target : Option String := none
  was_sent : Bool := false
  sent_at : Option Int := none
  deriving Repr, DecidableEq

/-- The payload dict attached to a `TimelineEntry`; the handlers only ever
store these four shapes (`app/domain/handlers.py`). -/
inductive TimelinePayload where
  | empty
  | reminderScheduled (offsets : List Int) (schedule_item_ids : List Nat)
  | conflicting (conflicting_event_ids : List Nat)
  | sharedTargets (targets : List String)
  | sentItem (schedule_item_id : Nat)
  deriving Repr, DecidableEq

/-- `TimelineEntry` from `app/domain/models.py`; `timestamp` is the
`utcnow` at construction, supplied by the clock threaded in the state. -/
structure TimelineEntry where
  id : Nat
  event_id : Nat
  timestamp : Int
  type : TimelineEntryType
  payload : TimelinePayload := .empty
  deriving Repr, DecidableEq

/-! ## Conflict detector — `app/services/conflicts.py` -/

/-- `find_conflicts` from `app/services/conflicts.py`: the list
comprehension `[event for event in existing_events if new_start <
event.end_time and event.start_time < new_end]`.  A pure function: the
input list is not mutated (the Lean embedding is trivially pure). -/
def find_conflicts (new_start new_end : Int) (existing_events : List Event) :
    List Event :=
  existing_events.filter fun event =>
    new_start < event.end_time && event.start_time < new_end

/-! ## Calendar arithmetic

The proleptic-Gregorian conversions (Howard Hinnant's `days_from_civil` /
`civil_from_days` algorithms), used to write concrete timestamps and to
model `strftime`.  All dates this development touches lie after 1970, so
every intermediate division below runs on non-negative operands. -/

/-- Day count since 1970-01-01 of the civil date `y-m-d`. -/
def daysFromCivil (y m d : Int) : Int :=
  let y' := if m ≤ 2 then y - 1 else y
  let era := (if 0 ≤ y' then y' else y' - 399) / 400
  let yoe := y' - era * 400
  let mp := (m + 9) % 12
  let doy := (153 * mp + 2) / 5 + d - 1
  let doe := yoe * 365 + yoe / 4 - yoe / 100 + doy
  era * 146097 + doe - 719468

/-- Civil date `(y, m, d)` of a day count since 1970-01-01. -/
def civilFromDays (z : Int) : Int × Int × Int :=
  let z' := z + 719468
  let era := (if 0 ≤ z' then z' else z' - 146096) / 146097
  let doe := z' - era * 146097
  let yoe := (doe - doe / 1460 + doe / 36524 - doe / 146096) / 365
  let y := yoe + era * 400
  let doy := doe - (365 * yoe + yoe / 4 - yoe / 100)
  let mp := (5 * doy + 2) / 153
  let d := doy - (153 * mp + 2) / 5 + 1
  let m := if mp < 10 then mp + 3 else mp - 9
  (if m ≤ 2 then y + 1 else y, m, d)

/-- A UTC timestamp at minute precision: minutes since the Unix epoch. -/
def mkDT (y m d hh mi : Int) : Int :=
  daysFromCivil y m d * 1440 + hh * 60 + mi

/-- Weekday of a day count since 1970-01-01 (a Thursday), `0 = Monday`. -/
def weekdayOfDay (z : Int) : Int :=
  (z + 3) % 7

/-- `%A` of `strftime`: the full weekday name. -/
def weekdayName (w : Int) : String :=
  if w = 0 then "Monday"
  else if w = 1 then "Tuesday"
  else if w = 2 then "Wednesday"
  else if w = 3 then "Thursday"
  else if w = 4 then "Friday"
  else if w = 5 then "Saturday"
  else "Sunday"

/-- `%B` of `strftime`: the full month name. -/
def monthName (m : Int) : String :=
  if m = 1 then "January"
  else if m = 2 then "February"
  else if m = 3 then "March"
  else if m = 4 then "April"
  else if m = 5 then "May"
  else if m = 6 then "June"
  else if m = 7 then "July"
  else if m = 8 then "August"
  else if m = 9 then "September"
  else if m = 10 then "October"
  else if m = 11 then "November"
  else "December"

/-- `%d` of `strftime`: the day of month, zero-padded to two digits. -/
def pad2 (n : Int) : String :=
  if n < 10 then "0" ++ toString n else toString n

/-- `strftime of a timestamp with format string percent-A percent-B
percent-d comma percent-Y` — the format the parser uses for the
`begin_recurrence` ambiguity options (`app/services/parser.py`). -/
def strftimeFullDate (t : Int) : String :=
  let z := t / 1440
  let c := civilFromDays z
  weekdayName (weekdayOfDay z) ++ " " ++ monthName c.2.1 ++ " " ++
    pad2 c.2.2 ++ ", " ++ toString c.1

/-! ## String helpers

Python's `in` substring test and `str.lower`, over `List Char`. -/

/-- Whether `pat` starts the list `s` (character-for-character). -/
def listStartsWith : List Char → List Char → Bool
  | [], _ => true
  | _ :: _, [] => false
  | p :: ps, c :: cs => p = c && listStartsWith ps cs

/-- Whether `pat` occurs inside `s` — Python's `pat in s`. -/
def listContainsSub (pat : List Char) : List Char → Bool
  | [] => listStartsWith pat []
  | c :: cs => listStartsWith pat (c :: cs) || listContainsSub pat cs

/-- Python's `pat in s` on strings. -/
def strContainsSub (s pat : String) : Bool :=
  listContainsSub pat.data s.data

/-- Python's `str.lower` (ASCII, which is all the engine feeds it). -/
def strLower (s : String) : String :=
  ⟨s.data.map Char.toLower⟩

/-- The characters Python's `str.strip` and the regex class `\s` treat as
whitespace (ASCII range). -/
def pyIsSpace (c : Char) : Bool :=
  c = ' ' || c = '\t' || c = '\n' || c = '\r' || c = '\x0b' || c = '\x0c'

/-- Python's `str.strip()`. -/
def strStrip (s : String) : String :=
  ⟨((s.data.dropWhile pyIsSpace).reverse.dropWhile pyIsSpace).reverse⟩

/-- Python's `value or None` on an optional string (the empty string is
falsy and collapses to `None`). -/
def orNoneStr : Option String → Option String
  | some "" => none
  | x => x

/-! ## Recurrence compiler — `app/services/recurrence.py`

`compile_rrule` lower-cases the phrase, decides interval and frequency,
collects day-of-week names, and renders the canonical rule string.  The
`dateutil` frequency and weekday constants are modelled as closed
enumerations; the regex `every\s+(\d+)\s+(week|day|month)` is modelled by
an explicit leftmost-match scanner (no backtracking changes its outcome:
the character classes of adjacent pieces are disjoint). -/

/-- The `dateutil` frequency constants the compiler uses. -/
inductive RFreq where
  | daily
  | weekly
  | monthly
  deriving Repr, DecidableEq

/-- The `dateutil` weekday constants. -/
inductive RDay where
  | mo | tu | we | th | fr | sa | su
  deriving Repr, DecidableEq

/-- `_DAY_MAP` from `app/services/recurrence.py`, in its (insertion)
iteration order. -/
def dayMap : List (String × RDay) :=
  [("monday", .mo), ("tuesday", .tu), ("wednesday", .we),
   ("thursday", .th), ("friday", .fr), ("saturday", .sa), ("sunday", .su)]

/-- `_freq_name` from `app/services/recurrence.py`. -/
def freqName : RFreq → String
  | .daily => "DAILY"
  | .weekly => "WEEKLY"
  | .monthly => "MONTHLY"

/-- `_day_abbr` from `app/services/recurrence.py`. -/
def dayAbbr : RDay → String
  | .mo => "MO" | .tu => "TU" | .we => "WE" | .th => "TH"
  | .fr => "FR" | .sa => "SA" | .su => "SU"

/-- Drop the literal `pat` from the front of `s`, if it is there. -/
def dropLit : List Char → List Char → Option (List Char)
  | [], s => some s
  | _ :: _, [] => none
  | p :: ps, c :: cs => if p = c then dropLit ps cs else none

/-- Consume one-or-more characters satisfying `p` (a regex `+`),
returning the consumed run and the rest; fails on an empty run. -/
def takeWhile1 (p : Char → Bool) (s : List Char) :
    Option (List Char × List Char) :=
  if s.takeWhile p = [] then none else some (s.takeWhile p, s.dropWhile p)

/-- Digits to the number they denote — Python's `int` on a digit run. -/
def digitsToNat (ds : List Char) : Nat :=
  ds.foldl (fun n c => 10 * n + (c.toNat - 48)) 0

/-- Match `every\s+(\d+)\s+(week|day|month)` anchored at the front of
`s`, returning `(N, unit)`; the alternation is tried in the pattern's
order. -/
def matchEveryNAt (s : List Char) : Option (Nat × String) :=
  match dropLit "every".data s with
  | none => none
  | some r1 =>
    match takeWhile1 pyIsSpace r1 with
    | none => none
    | some (_, r2) =>
      match takeWhile1 Char.isDigit r2 with
      | none => none
      | some (digits, r3) =>
        match takeWhile1 pyIsSpace r3 with
        | none => none
        | some (_, r4) =>
          if (dropLit "week".data r4).isSome then
            some (digitsToNat digits, "week")
          else if (dropLit "day".data r4).isSome then
            some (digitsToNat digits, "day")
          else if (dropLit "month".data r4).isSome then
            some (digitsToNat digits, "month")
          else none

/-- `re.search` for the pattern above: the match at the leftmost
position where one exists. -/
def searchEveryN : List Char → Option (Nat × String)
  | [] => none
  | c :: cs =>
    match matchEveryNAt (c :: cs) with
    | some r => some r
    | none => searchEveryN cs

/-- The `any(phrase in desc for phrase in ("every other", "biweekly",
"bi-weekly"))` test of `compile_rrule`. -/
def intervalWords (desc : String) : Bool :=
  strContainsSub desc "every other" || strContainsSub desc "biweekly" ||
    strContainsSub desc "bi-weekly"

/-- The `"daily" in desc or "every day" in desc` test. -/
def dailyWords (desc : String) : Bool :=
  strContainsSub desc "daily" || strContainsSub desc "every day"

/-- The `"monthly" in desc or "every month" in desc` test. -/
def monthlyWords (desc : String) : Bool :=
  strContainsSub desc "monthly" || strContainsSub desc "every month"

/-- `compile_rrule` from `app/services/recurrence.py`.  The source
mutates `freq`/`interval` starting from `WEEKLY`/`1`; the pair `fi`
carries the two variables through the first branch.  `if not
proposed.recurrence_description` is Python falsiness: `None` and the
empty string both return `None`. -/
def compile_rrule (proposed : ProposedEvent) : Option String :=
  match orNoneStr proposed.recurrence_description with
  | none => none
  | some rd =>
    let desc := strStrip (strLower rd)
    let fi : RFreq × Nat :=
      if intervalWords desc then (.weekly, 2)
      else
        match searchEveryN desc.data with
        | some (n, u) =>
          (if u = "day" then .daily else
            if u = "month" then .monthly else .weekly, n)
        | none => (.weekly, 1)
    let freq : RFreq :=
      if dailyWords desc then .daily
      else if monthlyWords desc then .monthly
      else fi.1
    let interval := fi.2
    let by_day0 := (dayMap.filter fun p => strContainsSub desc p.1).map
      Prod.snd
    let by_day := if strContainsSub desc "weekday" then
        [RDay.mo, .tu, .we, .th, .fr]
      else by_day0
    let parts := ["FREQ=" ++ freqName freq]
    let parts := if 1 < interval then
        parts ++ ["INTERVAL=" ++ toString interval]
      else parts
    let parts := if by_day ≠ [] ∧ freq = RFreq.weekly then
        parts ++ ["BYDAY=" ++ String.intercalate "," (by_day.map dayAbbr)]
      else parts
    some (String.intercalate ";" parts)

/-! ### The claimed form of `compile_rule`, stated from the spec's words
(interval, frequency and day set as three independent readings of the
phrase, then the encoding).  Compared with the source embedding in the
C7 theorem. -/

/-- Claimed interval: 2 on an interval word, else the N of an
`every N unit` pattern, else 1. -/
def spec_interval (desc : String) : Nat :=
  if intervalWords desc then 2
  else
    match searchEveryN desc.data with
    | some (n, _) => n
    | none => 1

/-- Claimed frequency: explicit daily/monthly words win (overriding an
earlier `every N unit` match); otherwise the matched unit's frequency
(the match is only consulted when no interval word preempted it);
weekly otherwise. -/
def spec_freq (desc : String) : RFreq :=
  if dailyWords desc then .daily
  else if monthlyWords desc then .monthly
  else if intervalWords desc then .weekly
  else
    match searchEveryN desc.data with
    | some (_, u) =>
      if u = "day" then .daily else if u = "month" then .monthly
      else .weekly
    | none => .weekly

/-- Claimed day set: the weekday names literally present, with the
literal word "weekday" expanding to Monday–Friday. -/
def spec_days (desc : String) : List RDay :=
  if strContainsSub desc "weekday" then [.mo, .tu, .we, .th, .fr]
  else (dayMap.filter fun p => strContainsSub desc p.1).map Prod.snd

/-- Claimed encoding: frequency, the interval only when it exceeds 1,
the day list only when the frequency is weekly and days are present. -/
def compile_rule_spec (proposed : ProposedEvent) : Option String :=
  match orNoneStr proposed.recurrence_description with
  | none => none
  | some rd =>
    let desc := strStrip (strLower rd)
    some (String.intercalate ";"
      (["FREQ=" ++ freqName (spec_freq desc)] ++
        (if 1 < spec_interval desc then
          ["INTERVAL=" ++ toString (spec_interval desc)]
        else []) ++
        (if spec_freq desc = RFreq.weekly ∧ spec_days desc ≠ [] then
          ["BYDAY=" ++ String.intercalate ","
            ((spec_days desc).map dayAbbr)]
        else [])))

/-! ## Parser ambiguity production — `app/services/parser.py`

`parse_unstructured_event` delegates field extraction to the LLM
collaborator and time resolution to `dateparser` (both external per the
spec); every `Ambiguity` it returns is produced by its recurrence
section (lines 100–140), embedded here as a function of the extracted
recurrence fields and the already-resolved `start_time`.  The source
reads the extracted values through `extracted.get(...) or None`, so an
empty string collapses to `none` before the section runs. -/

/-- The ambiguity list built by `parse_unstructured_event` from the
extracted `recurrence_description` and `recurrence_end_description` and
the parsed `start_time` (`app/services/parser.py` lines 100–140). -/
def recurrence_ambiguities (recurrence_description_raw : Option String)
    (end_recurrence_description_raw : Option String) (start_time : Int) :
    List Ambiguity :=
  match orNoneStr recurrence_description_raw with
  | none => []
  | some rd =>
    let end_recurrence_description := orNoneStr end_recurrence_description_raw
    let desc_lower := strLower rd
    let has_interval :=
      strContainsSub desc_lower "every other" ||
      strContainsSub desc_lower "biweekly" ||
      strContainsSub desc_lower "bi-weekly" ||
      strContainsSub desc_lower "every 2"
    let begin_ambs : List Ambiguity :=
      if has_interval then
        let next_candidate := start_time + 7 * 1440
        [{ field := "begin_recurrence",
           reason := "\"" ++ rd ++
             "\" implies an interval but the starting week is not specified",
           options := [strftimeFullDate start_time,
             strftimeFullDate next_candidate] }]
      else []
    let end_ambs : List Ambiguity :=
      if end_recurrence_description = none then
        [{ field := "end_recurrence_description",
           reason := "Recurring event has no end date specified",
           options := ["Add an end date", "Repeat indefinitely"] }]
      else []
    begin_ambs ++ end_ambs

/-! ## Recurrence expansion — `app/services/recurrence.py`

`expand_recurrence` assembles a `DTSTART:...\nRRULE:<rule>;UNTIL=...`
string and iterates the occurrences `dateutil.rrule.rrulestr` generates
for it.  The model parses the canonical `KEY=VALUE;...` rule part and
generates occurrences per the `dateutil`/RFC-5545 semantics for the
frequencies the compiler can emit (DAILY, WEEKLY, MONTHLY, with optional
INTERVAL and BYDAY); `DTSTART` and `UNTIL` are the two timestamps the
source renders into the string, so the model takes them directly.

Inside the loop the source constructs each child as
`Event(..., parent_id=parent.id, is_confirmed=parent.is_confirmed)`.
The `Event` model (`app/domain/models.py`) has neither field: reading
`parent.is_confirmed` raises `AttributeError` before the child is built
(and `parent_id=` would be dropped by pydantic in any case), so the loop
body errors on the first occurrence that differs from the parent's own
start.  The embedding returns `Except`, with the attribute read as the
error site. -/

/-- A Python runtime error the embedding can surface. -/
inductive PyErr where
  | attributeError (name : String)
  deriving Repr, DecidableEq

/-- Split a character list on a separator character. -/
def splitOnCh (sep : Char) : List Char → List (List Char)
  | [] => [[]]
  | c :: cs =>
    match splitOnCh sep cs with
    | [] => [[c]]
    | h :: t => if c = sep then [] :: h :: t else (c :: h) :: t

/-- Split `KEY=VALUE` at the first `=`. -/
def kvSplit : List Char → List Char × List Char
  | [] => ([], [])
  | c :: cs =>
    if c = '=' then ([], cs)
    else
      match kvSplit cs with
      | (k, v) => (c :: k, v)

/-- The value bound to `key` among parsed `KEY=VALUE` pairs. -/
def lookupKV (kvs : List (List Char × List Char)) (key : String) :
    Option (List Char) :=
  (kvs.find? fun p => p.1 = key.data).map Prod.snd

/-- A `BYDAY` value: comma-separated two-letter weekday codes. -/
def parseByday (v : List Char) : List RDay :=
  (splitOnCh ',' v).filterMap fun d =>
    if d = "MO".data then some .mo
    else if d = "TU".data then some .tu
    else if d = "WE".data then some .we
    else if d = "TH".data then some .th
    else if d = "FR".data then some .fr
    else if d = "SA".data then some .sa
    else if d = "SU".data then some .su
    else none

/-- The weekday of a day count, as a `dateutil` constant. -/
def weekdayRD (z : Int) : RDay :=
  let w := (z + 3) % 7
  if w = 0 then .mo else if w = 1 then .tu else if w = 2 then .we
  else if w = 3 then .th else if w = 4 then .fr else if w = 5 then .sa
  else .su

/-- The Monday starting the week of day `z` (`dateutil` default
`wkst=MO`). -/
def weekStart (z : Int) : Int :=
  z - (z + 3) % 7

/-- Scan days `d, d+1, ...` (bounded by `fuel`), keeping the timestamps
`d * 1440 + tod` of days satisfying `pred`, stopping once past
`untilT` (the scanned timestamp grows with the day). -/
def scanDays (pred : Int → Bool) (tod untilT : Int) :
    Nat → Int → List Int
  | 0, _ => []
  | fuel + 1, d =>
    let t := d * 1440 + tod
    if untilT < t then []
    else if pred d then t :: scanDays pred tod untilT fuel (d + 1)
    else scanDays pred tod untilT fuel (d + 1)

/-- WEEKLY occurrences: days in every `interval`-th week (weeks counted
from the week of `dtstart`, weeks starting Monday) whose weekday lies in
`byday` (the weekday of `dtstart` when no `BYDAY` is given), from
`dtstart` through `untilT` inclusive, at the time-of-day of `dtstart`. -/
def weeklyOccurrences (byday : List RDay) (interval : Nat)
    (dtstart untilT : Int) : List Int :=
  let d0 := dtstart / 1440
  let tod := dtstart % 1440
  let bys := if byday = [] then [weekdayRD d0] else byday
  let fuel := (untilT / 1440 - d0 + 1).toNat
  scanDays
    (fun d => bys.contains (weekdayRD d) &&
      (weekStart d - weekStart d0) / 7 % (interval : Int) = 0)
    tod untilT fuel d0

/-- DAILY occurrences: every `interval`-th day from `dtstart` through
`untilT` (a `BYDAY` set, never emitted for DAILY by the compiler, would
act as a day filter). -/
def dailyOccurrences (byday : List RDay) (interval : Nat)
    (dtstart untilT : Int) : List Int :=
  let d0 := dtstart / 1440
  let tod := dtstart % 1440
  let fuel := (untilT / 1440 - d0 + 1).toNat
  scanDays
    (fun d => (d - d0) % (interval : Int) = 0 &&
      (byday = [] || byday.contains (weekdayRD d)))
    tod untilT fuel d0

/-- Whether a proleptic-Gregorian year is a leap year. -/
def isLeapYear (y : Int) : Bool :=
  (y % 4 = 0 && y % 100 ≠ 0) || y % 400 = 0

/-- Days in a month. -/
def daysInMonth (y m : Int) : Int :=
  if m = 2 then (if isLeapYear y then 29 else 28)
  else if m = 4 || m = 6 || m = 9 || m = 11 then 30
  else 31

/-- MONTHLY occurrences: the day-of-month of `dtstart` in every
`interval`-th month, skipping months without that day, through
`untilT`. -/
def monthlyOccurrences (interval : Nat) (dtstart untilT : Int) :
    List Int :=
  let d0 := dtstart / 1440
  let tod := dtstart % 1440
  let c := civilFromDays d0
  let dom := c.2.2
  let m0 := c.1 * 12 + (c.2.1 - 1)
  let fuel := ((untilT - dtstart) / (1440 * 28) + 2).toNat
  (List.range fuel).filterMap fun k =>
    let mi := m0 + (k * interval : Nat)
    let y := mi / 12
    let m := mi % 12 + 1
    if dom ≤ daysInMonth y m then
      let t := daysFromCivil y m dom * 1440 + tod
      if dtstart ≤ t && t ≤ untilT then some t else none
    else none

/-- The occurrence list `rrulestr` yields for a canonical rule part with
the given `DTSTART` and `UNTIL`. -/
def rruleOccurrences (rule : String) (dtstart untilT : Int) : List Int :=
  let kvs := (splitOnCh ';' rule.data).map kvSplit
  let interval := match lookupKV kvs "INTERVAL" with
    | some v => digitsToNat v
    | none => 1
  let byday := match lookupKV kvs "BYDAY" with
    | some v => parseByday v
    | none => []
  if lookupKV kvs "FREQ" = some "DAILY".data then
    dailyOccurrences byday interval dtstart untilT
  else if lookupKV kvs "FREQ" = some "MONTHLY".data then
    monthlyOccurrences interval dtstart untilT
  else
    weeklyOccurrences byday interval dtstart untilT

/-- The `for dt in rule:` loop of `expand_recurrence`: the parent's own
occurrence is skipped; any other occurrence reaches the child
construction, whose argument `parent.is_confirmed` reads a field the
`Event` model does not have. -/
def expandLoop (parent : Event) : List Int → Except PyErr (List Event)
  | [] => .ok []
  | dt :: rest =>
    if dt = parent.start_time then expandLoop parent rest
    else .error (.attributeError "is_confirmed")

/-- `expand_recurrence` from `app/services/recurrence.py`.  `if not
parent.recurrence_rule or not parent.recurrence_end` is Python
falsiness: a missing or empty rule, or a missing end, short-circuits to
the empty list. -/
def expand_recurrence (parent : Event) : Except PyErr (List Event) :=
  match orNoneStr parent.recurrence_rule, parent.recurrence_end with
  | some rule, some rend =>
    expandLoop parent (rruleOccurrences rule parent.start_time rend)
  | _, _ => .ok []

/-! ## Repositories and system state — `app/repos/memory.py`

One record carries the five in-memory stores the handler registry is
constructed with, plus the two supplies the source draws on implicitly:
fresh `uuid4` ids (a counter) and `utcnow` (a strictly advancing clock,
so Python's stable sort of timeline entries by timestamp is the identity
on the append order). -/

/-- The application state: every repository, the id supply and the
clock. -/
structure Sys where
  events : List Event
  parseResponses : List ParseResponse
  timeline : List TimelineEntry
  prefs : List ReminderPreference
  schedule : List ReminderScheduleItem
  nextId : Nat
  now : Int
  deriving Repr, DecidableEq

/-- `EventRepository.get`: the stored event with the given id. -/
def eventsGet (s : Sys) (eid : Nat) : Option Event :=
  s.events.find? fun e => e.id = eid

/-- `EventRepository.add`: keyed by id — replace in place, else append
(a Python dict keeps the insertion position on overwrite). -/
def eventsAdd (s : Sys) (e : Event) : Sys :=
  if s.events.any (fun x => x.id = e.id) then
    { s with events := s.events.map fun x => if x.id = e.id then e else x }
  else
    { s with events := s.events ++ [e] }

/-- In-place mutation of the stored event with id `eid` (Python mutates
the fetched object, which the dict shares). -/
def eventsUpdate (s : Sys) (eid : Nat) (f : Event → Event) : Sys :=
  { s with events := s.events.map fun e => if e.id = eid then f e else e }

/-- `TimelineRepository.add` plus the entry construction: the entry gets
a fresh id and the current `utcnow`, and the clock advances. -/
def addTimeline (s : Sys) (eid : Nat) (ty : TimelineEntryType)
    (pl : TimelinePayload) : Sys :=
  { s with
    timeline := s.timeline ++
      [{ id := s.nextId, event_id := eid, timestamp := s.now, type := ty,
         payload := pl }],
    nextId := s.nextId + 1,
    now := s.now + 1 }

/-- `TimelineRepository.list_for_event`: the entries of one event,
sorted by timestamp (Python's `sorted` is stable). -/
def timelineForEvent (s : Sys) (eid : Nat) : List TimelineEntry :=
  List.insertionSort (fun a b => a.timestamp ≤ b.timestamp)
    (s.timeline.filter fun e => e.event_id = eid)

/-- `ParseResponseRepository.get`. -/
def prGet (s : Sys) (pid : Nat) : Option ParseResponse :=
  s.parseResponses.find? fun pr => pr.id = pid

/-- `ParseResponseRepository.list_pending`. -/
def listPending (s : Sys) : List ParseResponse :=
  s.parseResponses.filter fun pr => pr.status = .pending

/-- `ParseResponseRepository.update_status`. -/
def prUpdateStatus (s : Sys) (pid : Nat) (st : ParseResponseStatus) :
    Sys :=
  { s with parseResponses := s.parseResponses.map fun pr =>
      if pr.id = pid then { pr with status := st } else pr }

/-- `ReminderScheduleRepository.list_due`: unsent items whose trigger
time has been reached. -/
def list_due (s : Sys) (now : Int) : List ReminderScheduleItem :=
  s.schedule.filter fun i => !i.was_sent && i.trigger_time ≤ now

/-- `ReminderScheduleRepository.mark_sent`: mark the first item with the
given id as sent (the loop returns after the first hit). -/
def markSentList : List ReminderScheduleItem → Nat → Int →
    List ReminderScheduleItem
  | [], _, _ => []
  | i :: rest, iid, t =>
    if i.id = iid then { i with was_sent := true, sent_at := some t } :: rest
    else i :: markSentList rest iid t

/-! ## Reminder scheduler — `app/services/reminders.py` -/

/-- `DEFAULT_OFFSETS` (12 hours and 30 minutes). -/
def DEFAULT_OFFSETS : List Int := [720, 30]

/-- `schedule_reminders`: per offset, one `ReminderPreference` and one
`ReminderScheduleItem` triggering at `start_time − offset`, both stored;
returns the created items.  The pydantic validator on
`ReminderPreference` rejects non-positive offsets at construction; per
the engine's contract such offsets never reach this code, and the
theorems that exercise it carry that as a precondition. -/
def schedule_reminders (s : Sys) (event_id : Nat) (start_time : Int) :
    List Int → Sys × List ReminderScheduleItem
  | [] => (s, [])
  | offset :: rest =>
    let pref : ReminderPreference :=
      { id := s.nextId, event_id := event_id, offset_minutes := offset }
    let item : ReminderScheduleItem :=
      { id := s.nextId + 1, event_id := event_id,
        preference_id := pref.id,
        trigger_time := start_time - offset,
        channel := pref.channel, target := pref.target }
    let s' := { s with prefs := s.prefs ++ [pref],
                       schedule := s.schedule ++ [item],
                       nextId := s.nextId + 2 }
    let r := schedule_reminders s' event_id start_time rest
    (r.1, item :: r.2)

/-! ## Domain events and handlers — `app/domain/events.py`,
`app/domain/handlers.py`

The bus (`app/domain/bus.py`) dispatches synchronously to the handlers
the registry subscribes, one per event type; `ReminderScheduled` has no
subscriber, so publishing it is a no-op.  `publish` below is the bus
dispatch with the registry's subscriptions baked in; the re-entrant
publication of `ConflictDetected` inside `on_event_created` becomes a
direct call. -/

/-- The domain events of `app/domain/events.py`. -/
inductive DomainEvent where
  | eventCreated (event_id : Nat)
      (reminder_offsets_minutes : Option (List Int))
  | conflictDetected (event_id : Nat) (conflicting_event_ids : List Nat)
  | eventShared (event_id : Nat) (targets : List String)
  | reminderScheduled (event_id : Nat) (schedule_item_ids : List Nat)
  | eventConfirmed (event_id : Nat)
  | reminderSent (event_id : Nat) (schedule_item_id : Nat) (sent_at : Int)
  deriving Repr, DecidableEq

/-- One conflict description of `on_conflict_detected`: title plus id
when the conflicting event is in the store, the bare id otherwise. -/
def conflictDescription (s : Sys) (cid : Nat) : String :=
  match eventsGet s cid with
  | some c => c.title ++ " (" ++ toString cid ++ ")"
  | none => toString cid

/-- `HandlerRegistry.on_conflict_detected`: timeline entry with the
conflicting ids, status to Conflicted, then a new pending proposal
mirroring the event with a single "time" Ambiguity.  The `ProposedEvent`
construction re-validates `end > start`, which the stored event's own
invariant guarantees. -/
def on_conflict_detected (s : Sys) (event_id : Nat)
    (conflicting_event_ids : List Nat) : Sys :=
  match eventsGet s event_id with
  | none => s
  | some stored =>
    let s1 := addTimeline s event_id .conflict_detected
      (.conflicting conflicting_event_ids)
    let s2 := eventsUpdate s1 event_id fun e =>
      { e with status := .conflicted }
    let conflict_titles := conflicting_event_ids.map
      (conflictDescription s2)
    let pr : ParseResponse :=
      { id := s2.nextId,
        proposed_event :=
          { title := stored.title, start_time := stored.start_time,
            end_time := stored.end_time, location := stored.location,
            notes := stored.notes },
        ambiguities :=
          [{ field := "time",
             reason := "Conflicts with: " ++
               String.intercalate ", " conflict_titles,
             options := ["Keep both", "Cancel this event"] }],
        event_id := some event_id }
    { s2 with parseResponses := s2.parseResponses ++ [pr],
              nextId := s2.nextId + 1 }

/-- `event.reminder_offsets_minutes or DEFAULT_OFFSETS` — Python
falsiness: `None` and the empty list both fall back to the defaults. -/
def resolveOffsets : Option (List Int) → List Int
  | none => DEFAULT_OFFSETS
  | some [] => DEFAULT_OFFSETS
  | some l => l

/-- Steps 1–5 of `HandlerRegistry.on_event_created`: the created
timeline entry, the reminder scheduling, the reminders-scheduled flag,
the reminder-scheduled timeline entry, and the (subscriber-less)
`ReminderScheduled` publication. -/
def scheduledState (s : Sys) (event_id : Nat) (start_time : Int)
    (offsets : List Int) : Sys :=
  let s1 := addTimeline s event_id .created .empty
  let r := schedule_reminders s1 event_id start_time offsets
  let schedule_ids := r.2.map fun item => item.id
  let s3 := eventsUpdate r.1 event_id fun e =>
    { e with reminders_scheduled := true }
  addTimeline s3 event_id .reminder_scheduled
    (.reminderScheduled offsets schedule_ids)

/-- `HandlerRegistry.on_event_created`: the scheduling steps above,
then the conflict check guarded by the absence of a prior
ConflictDetected entry in the event's own timeline; a non-empty conflict
list re-enters the bus as a synchronous `ConflictDetected` dispatch. -/
def on_event_created (s : Sys) (event_id : Nat)
    (reminder_offsets_minutes : Option (List Int)) : Sys :=
  match eventsGet s event_id with
  | none => s
  | some stored =>
    let offsets := resolveOffsets reminder_offsets_minutes
    let s4 := scheduledState s event_id stored.start_time offsets
    let already_had_conflict := (timelineForEvent s4 event_id).any
      fun e => e.type = .conflict_detected
    if already_had_conflict then s4
    else
      let others := s4.events.filter fun e => e.id ≠ event_id
      let conflicts := find_conflicts stored.start_time stored.end_time
        others
      if conflicts.isEmpty then s4
      else on_conflict_detected s4 event_id (conflicts.map fun c => c.id)

/-- `HandlerRegistry.on_event_shared`. -/
def on_event_shared (s : Sys) (event_id : Nat) (targets : List String) :
    Sys :=
  match eventsGet s event_id with
  | none => s
  | some _ =>
    let s1 := eventsUpdate s event_id fun e => { e with was_shared := true }
    addTimeline s1 event_id .shared (.sharedTargets targets)

/-- `HandlerRegistry.on_event_confirmed`. -/
def on_event_confirmed (s : Sys) (event_id : Nat) : Sys :=
  match eventsGet s event_id with
  | none => s
  | some _ =>
    let s1 := eventsUpdate s event_id fun e =>
      { e with status := .confirmed }
    addTimeline s1 event_id .confirmed .empty

/-- `HandlerRegistry.on_reminder_sent`. -/
def on_reminder_sent (s : Sys) (event_id : Nat) (schedule_item_id : Nat)
    (sent_at : Int) : Sys :=
  match eventsGet s event_id with
  | none => s
  | some _ =>
    let s1 := { s with
      schedule := markSentList s.schedule schedule_item_id sent_at }
    let s2 := eventsUpdate s1 event_id fun e =>
      { e with last_reminder_sent_id := some schedule_item_id,
               reminder_last_sent_at := some sent_at,
               status := .reminded }
    addTimeline s2 event_id .reminder_sent (.sentItem schedule_item_id)

/-- `EventBus.publish` with the registry's subscriptions: the handler
registered for the event's exact type runs synchronously
(`ReminderScheduled` has none). -/
def publish (s : Sys) : DomainEvent → Sys
  | .eventCreated eid offs => on_event_created s eid offs
  | .conflictDetected eid cids => on_conflict_detected s eid cids
  | .eventShared eid ts => on_event_shared s eid ts
  | .reminderScheduled _ _ => s
  | .eventConfirmed eid => on_event_confirmed s eid
  | .reminderSent eid iid t => on_reminder_sent s eid iid t

/-! ## The confirm route — `app/main.py` -/

/-- The HTTP failures `confirm_proposed_event` can raise. -/
inductive HttpErr where
  | notFound
  | badRequest
  deriving Repr, DecidableEq

/-- `confirm_proposed_event` from `app/main.py`: look up the pending
proposal, build the `Event`, store it, mark the proposal confirmed and
publish `EventCreated`.  The source passes `is_confirmed=True` to the
`Event` constructor — `Event` has no such field, pydantic v2 drops the
unknown keyword, and `status` keeps its declared default `draft`. -/
def confirm_proposed_event (s : Sys) (proposed_event_id : Nat)
    (proposed : ProposedEvent) : Except HttpErr (Sys × Nat) :=
  match prGet s proposed_event_id with
  | none => .error .notFound
  | some pr =>
    if pr.status ≠ .pending then .error .badRequest
    else
      let recurrence_rule := compile_rrule proposed
      let event : Event :=
        { id := s.nextId,
          title := proposed.title,
          start_time := proposed.start_time,
          end_time := proposed.end_time,
          location := proposed.location,
          notes := proposed.notes,
          created_at := s.now,
          status := .draft,
          proposed_event_id := some pr.id,
          recurrence_rule := recurrence_rule,
          recurrence_end :=
            if recurrence_rule.isSome then proposed.begin_recurrence
            else none }
      let s1 := eventsAdd { s with nextId := s.nextId + 1, now := s.now + 1 }
        event
      let s2 := prUpdateStatus s1 proposed_event_id .confirmed
      let s3 := publish s2 (.eventCreated event.id none)
      .ok (s3, event.id)

/-- Entries of one type in one event's timeline. -/
def countType (s : Sys) (eid : Nat) (ty : TimelineEntryType) : Nat :=
  (s.timeline.filter fun e => e.event_id = eid ∧ e.type = ty).length

/-! ## Concrete inputs used by witnesses and counterexamples -/

/-- A concrete event overlapping the candidate interval `[10, 20)`. -/
def c1overlapping : Event :=
  { id := 1, title := "a", start_time := 5, end_time := 15 }

/-- A concrete event touching `[10, 20)` only at the boundary. -/
def c1boundary : Event :=
  { id := 2, title := "b", start_time := 0, end_time := 10 }

/-- 2026-03-05 15:30 UTC, the start time of the recurring proposal in the
repository's own fixtures. -/
def marchFifth : Int := mkDT 2026 3 5 15 30

/-- The weekly-Thursday parent of the C4 worked example (the fixture of
`test_expand_weekly_four_weeks`): starts 2026-02-19 15:30, ends 17:00,
rule `FREQ=WEEKLY;BYDAY=TH`, boundary 2026-03-13 23:59. -/
def c4parent : Event :=
  { id := 7, title := "Soccer practice",
    start_time := mkDT 2026 2 19 15 30,
    end_time := mkDT 2026 2 19 17 0,
    recurrence_rule := some "FREQ=WEEKLY;BYDAY=TH",
    recurrence_end := some (mkDT 2026 3 13 23 59) }

/-- The one-off proposal of the C2 scenario (no recurrence). -/
def c2proposed : ProposedEvent :=
  { title := "Doctor appointment", start_time := mkDT 2026 3 2 14 0,
    end_time := mkDT 2026 3 2 15 0, location := some "Clinic",
    notes := some "checkup" }

/-- A fresh application state holding one pending proposal and nothing
else. -/
def c2sys : Sys :=
  { events := [], parseResponses := [{ id := 0, proposed_event := c2proposed }],
    timeline := [], prefs := [], schedule := [], nextId := 1, now := 100 }

/-- A confirmed stored event used by the handler witnesses. -/
def wEvent : Event :=
  { id := 1, title := "Test event", start_time := 1000, end_time := 1060,
    status := .confirmed }

/-- A second stored event overlapping `wEvent`, for the C6 witness. -/
def wOther : Event :=
  { id := 2, title := "Existing meeting", start_time := 1030,
    end_time := 1090, status := .confirmed }

/-- A timeline entry recording a past conflict of `wEvent`. -/
def wConflictEntry : TimelineEntry :=
  { id := 5, event_id := 1, timestamp := 40, type := .conflict_detected,
    payload := .conflicting [2] }

/-- A state whose timeline already records a conflict for `wEvent`. -/
def c3sys : Sys :=
  { events := [wEvent, wOther], parseResponses := [],
    timeline := [wConflictEntry],
    prefs := [], schedule := [], nextId := 10, now := 50 }

/-- A state holding the two overlapping events and an empty timeline. -/
def c6sys : Sys :=
  { events := [wEvent, wOther], parseResponses := [], timeline := [],
    prefs := [], schedule := [], nextId := 10, now := 50 }

/-- An unsent schedule item of `wEvent`, due at time 940. -/
def wItem : ReminderScheduleItem :=
  { id := 3, event_id := 1, preference_id := 4, trigger_time := 940,
    channel := "log" }

/-- A state holding `wEvent` and its one schedule item. -/
def c8sys : Sys :=
  { events := [wEvent], parseResponses := [], timeline := [],
    prefs := [{ id := 4, event_id := 1, offset_minutes := 60 }],
    schedule := [wItem], nextId := 10, now := 50 }

end EventLifecycle

namespace EventLifecycle

/-- C1: `find_conflicts` returns exactly the events satisfying the strict
overlap rule `new_start < e.end_time ∧ e.start_time < new_end`, as a
sublist of the input (hence in the input's original order, without
mutation), and an event touching the candidate interval only at a
boundary (`e.end_time = new_start` or `e.start_time = new_end`) is never
returned. -/
theorem find_conflicts_exact (new_start new_end : Int)
    (existing_events : List Event) :
    (find_conflicts new_start new_end existing_events).Sublist
        existing_events
    ∧ (∀ e, e ∈ find_conflicts new_start new_end existing_events ↔
        e ∈ existing_events ∧ new_start < e.end_time ∧
          e.start_time < new_end)
    ∧ (∀ e, e ∈ existing_events →
        (e.end_time = new_start ∨ e.start_time = new_end) →
        e ∉ find_conflicts new_start new_end existing_events) := by
  refine ⟨List.filter_sublist _, fun e => ?_, fun e _ hb hmem => ?_⟩
  · simp [find_conflicts, List.mem_filter, and_assoc]
  · rw [find_conflicts, List.mem_filter] at hmem
    rcases hmem with ⟨-, hcond⟩
    simp only [Bool.and_eq_true, decide_eq_true_eq] at hcond
    rcases hb with hb | hb
    · exact absurd hcond.1 (by omega)
    · exact absurd hcond.2 (by omega)

/-- Witness for C1 at a concrete input: the overlapping event is
returned, the boundary-touching event is not. -/
theorem find_conflicts_exact_witness :
    c1overlapping ∈ find_conflicts 10 20 [c1overlapping, c1boundary]
    ∧ c1boundary ∉ find_conflicts 10 20 [c1overlapping, c1boundary] :=
  ⟨((find_conflicts_exact 10 20 [c1overlapping, c1boundary]).2.1
        c1overlapping).mpr ⟨by simp, by decide, by decide⟩,
    (find_conflicts_exact 10 20 [c1overlapping, c1boundary]).2.2
      c1boundary (by simp) (Or.inl (by decide))⟩

/-- C5 counterexample: on the recurrence phrase "every other Thursday"
with no end phrase (start 2026-03-05 15:30, the repository fixture), the
parser produces two Ambiguities, but the one on
`end_recurrence_description` carries the two options "Add an end date" /
"Repeat indefinitely" — not, as the claim states, no options. -/
theorem recurrence_ambiguities_end_options_nonempty :
    ((recurrence_ambiguities (some "every other Thursday") none
        marchFifth).map fun a => (a.field, a.options)) =
      [("begin_recurrence",
        ["Thursday March 05, 2026", "Thursday March 12, 2026"]),
       ("end_recurrence_description",
        ["Add an end date", "Repeat indefinitely"])]
    ∧ ¬ ∃ a ∈ recurrence_ambiguities (some "every other Thursday") none
        marchFifth,
        a.field = "end_recurrence_description" ∧ a.options = [] := by
  decide

/-- C7: `compile_rrule` coincides, on every proposal, with the rule the
spec describes — nothing without a recurrence phrase; otherwise interval
2 on an interval word else the `every N unit` count else 1; frequency
from explicit daily/monthly words overriding the matched unit, weekly
otherwise; the literally-present weekday names (with "weekday" expanding
to Monday–Friday); and the string encoding frequency, interval only
above 1, and days only for weekly frequency. -/
theorem compile_rrule_matches_spec (p : ProposedEvent) :
    compile_rrule p = compile_rule_spec p := by
  unfold compile_rrule compile_rule_spec
  cases orNoneStr p.recurrence_description with
  | none => rfl
  | some rd =>
    simp only [spec_freq, spec_interval, spec_days]
    by_cases hi : intervalWords (strStrip (strLower rd)) <;>
      by_cases hd : dailyWords (strStrip (strLower rd)) <;>
        by_cases hm : monthlyWords (strStrip (strLower rd)) <;>
          cases hs : searchEveryN (strStrip (strLower rd)).data with
          | none =>
            simp [hi, hd, hm, hs, and_comm] <;> split_ifs <;> simp_all
          | some r =>
            obtain ⟨n, u⟩ := r
            by_cases hu : u = "day" <;> by_cases hu' : u = "month" <;>
              (simp [hi, hd, hm, hs, hu, hu', and_comm] <;>
                split_ifs <;> simp_all)

/-- C4 (code bug): on the claim's own worked example — weekly Thursday
rule starting 2026-02-19 with boundary 2026-03-13 — the rule does yield
exactly the parent's date plus the three claimed dates 02-26, 03-05 and
03-12, but `expand_recurrence` raises `AttributeError` on the first
non-parent occurrence instead of returning children: the child
construction reads `parent.is_confirmed`, a field the `Event` model does
not have (and its `parent_id=` keyword would be dropped, never setting
`parent_event_id`).  This contradicts the function's own docstring and
`test_expand_weekly_four_weeks`. -/
theorem expand_recurrence_attribute_error :
    rruleOccurrences "FREQ=WEEKLY;BYDAY=TH" (mkDT 2026 2 19 15 30)
        (mkDT 2026 3 13 23 59) =
      [mkDT 2026 2 19 15 30, mkDT 2026 2 26 15 30, mkDT 2026 3 5 15 30,
        mkDT 2026 3 12 15 30]
    ∧ expand_recurrence c4parent =
        .error (.attributeError "is_confirmed") := by
  exact ⟨by decide, rfl⟩

/-! ### Shared lemmas about the state and the handlers -/

/-- Permuting a list does not change `any`. -/
theorem perm_any {α : Type} {l l' : List α} (h : l.Perm l')
    (p : α → Bool) : l.any p = l'.any p := by
  rw [Bool.eq_iff_iff, List.any_eq_true, List.any_eq_true]
  exact ⟨fun ⟨x, hx, hp⟩ => ⟨x, h.mem_iff.mp hx, hp⟩,
    fun ⟨x, hx, hp⟩ => ⟨x, h.mem_iff.mpr hx, hp⟩⟩

/-- `any` over a sorted per-event timeline equals `any` over the raw
filtered store (sorting permutes). -/
theorem timelineForEvent_any (s : Sys) (eid : Nat)
    (p : TimelineEntry → Bool) :
    (timelineForEvent s eid).any p =
      (s.timeline.filter fun e => e.event_id = eid).any p :=
  perm_any (List.perm_insertionSort _ _) p

/-- A fetched event carries the id it was fetched by. -/
theorem eventsGet_id {s : Sys} {eid : Nat} {E : Event}
    (h : eventsGet s eid = some E) : E.id = eid := by
  have := List.find?_some h
  simpa using this

/-- `eventsGet` after an in-place update, for an id-preserving
mutation. -/
theorem eventsGet_eventsUpdate (s : Sys) (eid : Nat) (f : Event → Event)
    (hid : ∀ e, (f e).id = e.id) (cid : Nat) :
    eventsGet (eventsUpdate s eid f) cid =
      (eventsGet s cid).map fun e => if e.id = eid then f e else e := by
  unfold eventsGet eventsUpdate
  induction s.events with
  | nil => rfl
  | cons e l ih =>
    by_cases he : e.id = eid <;> by_cases hc : e.id = cid <;>
      simp_all [List.find?_cons, hid]

/-- A title-and-id-preserving update leaves every conflict description
unchanged. -/
theorem conflictDescription_eventsUpdate (s : Sys) (eid : Nat)
    (f : Event → Event) (hid : ∀ e, (f e).id = e.id)
    (ht : ∀ e, (f e).title = e.title) (cid : Nat) :
    conflictDescription (eventsUpdate s eid f) cid =
      conflictDescription s cid := by
  unfold conflictDescription
  rw [eventsGet_eventsUpdate s eid f hid cid]
  cases h : eventsGet s cid with
  | none => rfl
  | some e => by_cases he : e.id = eid <;> simp [he, ht]

/-- `addTimeline` changes no store but the timeline (and the
supplies). -/
theorem addTimeline_frame (s : Sys) (eid : Nat) (ty : TimelineEntryType)
    (pl : TimelinePayload) :
    (addTimeline s eid ty pl).events = s.events
    ∧ (addTimeline s eid ty pl).parseResponses = s.parseResponses
    ∧ (addTimeline s eid ty pl).prefs = s.prefs
    ∧ (addTimeline s eid ty pl).schedule = s.schedule
    ∧ (addTimeline s eid ty pl).timeline = s.timeline ++
        [{ id := s.nextId, event_id := eid, timestamp := s.now,
           type := ty, payload := pl }] :=
  ⟨rfl, rfl, rfl, rfl, rfl⟩

/-- `schedule_reminders` touches only the preference and schedule
stores. -/
theorem schedule_reminders_frame (eid : Nat) (st : Int) :
    ∀ (offs : List Int) (s : Sys),
      (schedule_reminders s eid st offs).1.timeline = s.timeline
      ∧ (schedule_reminders s eid st offs).1.events = s.events
      ∧ (schedule_reminders s eid st offs).1.parseResponses =
          s.parseResponses
      ∧ (schedule_reminders s eid st offs).1.now = s.now
  | [], s => ⟨rfl, rfl, rfl, rfl⟩
  | o :: rest, s => by
    simpa [schedule_reminders] using schedule_reminders_frame eid st rest _

/-- The offsets of the preferences `schedule_reminders` stores for the
event: the existing ones, then the given list in order. -/
theorem schedule_reminders_prefs (eid : Nat) (st : Int) :
    ∀ (offs : List Int) (s : Sys),
      (((schedule_reminders s eid st offs).1.prefs.filter
          fun p => p.event_id = eid).map fun p => p.offset_minutes) =
        ((s.prefs.filter fun p => p.event_id = eid).map
          fun p => p.offset_minutes) ++ offs
  | [], s => by simp [schedule_reminders]
  | o :: rest, s => by
    simp [schedule_reminders, schedule_reminders_prefs eid st rest]

/-- The trigger times of the schedule items `schedule_reminders` stores
for the event: the existing ones, then `start − offset` per offset in
order. -/
theorem schedule_reminders_schedule (eid : Nat) (st : Int) :
    ∀ (offs : List Int) (s : Sys),
      (((schedule_reminders s eid st offs).1.schedule.filter
          fun i => i.event_id = eid).map fun i => i.trigger_time) =
        ((s.schedule.filter fun i => i.event_id = eid).map
          fun i => i.trigger_time) ++ offs.map (fun o => st - o)
  | [], s => by simp [schedule_reminders]
  | o :: rest, s => by
    simp [schedule_reminders, schedule_reminders_schedule eid st rest]

/-- Adding a timeline entry bumps exactly the matching per-event,
per-type count. -/
theorem countType_addTimeline (s : Sys) (eid : Nat)
    (ty : TimelineEntryType) (pl : TimelinePayload) (eid' : Nat)
    (ty' : TimelineEntryType) :
    countType (addTimeline s eid ty pl) eid' ty' =
      countType s eid' ty' + (if eid = eid' ∧ ty = ty' then 1 else 0) := by
  unfold countType addTimeline
  simp only [List.filter_append, List.length_append]
  congr 1
  by_cases h : eid = eid' ∧ ty = ty' <;> simp [List.filter, h]

/-- `schedule_reminders` leaves the timeline alone, so every count is
preserved. -/
theorem countType_schedule_reminders (s : Sys) (eid : Nat) (st : Int)
    (offs : List Int) (eid' : Nat) (ty' : TimelineEntryType) :
    countType (schedule_reminders s eid st offs).1 eid' ty' =
      countType s eid' ty' := by
  unfold countType
  rw [(schedule_reminders_frame eid st offs s).1]

/-- The two timeline entries `scheduledState` appends: one created and
one reminder-scheduled, both for the dispatched event. -/
theorem countType_scheduledState (s : Sys) (eid : Nat) (st : Int)
    (offs : List Int) (eid' : Nat) (ty' : TimelineEntryType) :
    countType (scheduledState s eid st offs) eid' ty' =
      countType s eid' ty'
        + (if eid = eid' ∧ TimelineEntryType.created = ty' then 1 else 0)
        + (if eid = eid' ∧ TimelineEntryType.reminder_scheduled = ty'
            then 1 else 0) := by
  unfold scheduledState
  rw [countType_addTimeline]
  have hupd : ∀ (t : Sys) (f : Event → Event),
      countType (eventsUpdate t eid f) eid' ty' = countType t eid' ty' :=
    fun t f => rfl
  rw [hupd, countType_schedule_reminders, countType_addTimeline]

/-- `scheduledState` stores no proposal. -/
theorem scheduledState_parseResponses (s : Sys) (eid : Nat) (st : Int)
    (offs : List Int) :
    (scheduledState s eid st offs).parseResponses = s.parseResponses := by
  unfold scheduledState
  show (schedule_reminders _ _ _ _).1.parseResponses = _
  rw [(schedule_reminders_frame eid st offs _).2.2.1]
  rfl

/-- The preference offsets `scheduledState` leaves for the event. -/
theorem scheduledState_prefs (s : Sys) (eid : Nat) (st : Int)
    (offs : List Int) :
    (((scheduledState s eid st offs).prefs.filter
        fun p => p.event_id = eid).map fun p => p.offset_minutes) =
      ((s.prefs.filter fun p => p.event_id = eid).map
        fun p => p.offset_minutes) ++ offs := by
  unfold scheduledState
  show (((schedule_reminders _ _ _ _).1.prefs.filter _).map _) = _
  rw [schedule_reminders_prefs]
  rfl

/-- The schedule trigger times `scheduledState` leaves for the event. -/
theorem scheduledState_schedule (s : Sys) (eid : Nat) (st : Int)
    (offs : List Int) :
    (((scheduledState s eid st offs).schedule.filter
        fun i => i.event_id = eid).map fun i => i.trigger_time) =
      ((s.schedule.filter fun i => i.event_id = eid).map
        fun i => i.trigger_time) ++ offs.map (fun o => st - o) := by
  unfold scheduledState
  show (((schedule_reminders _ _ _ _).1.schedule.filter _).map _) = _
  rw [schedule_reminders_schedule]
  rfl

/-- A positive per-event conflict count is exactly what the handler's
guard reads off the (sorted) per-event timeline. -/
theorem timelineForEvent_guard (s : Sys) (eid : Nat)
    (ty : TimelineEntryType) :
    ((timelineForEvent s eid).any fun e => e.type = ty) =
      decide (0 < countType s eid ty) := by
  rw [timelineForEvent_any, Bool.eq_iff_iff, List.any_eq_true,
    decide_eq_true_eq]
  unfold countType
  constructor
  · rintro ⟨e, he, hty⟩
    rw [List.mem_filter] at he
    refine List.length_pos.mpr (List.ne_nil_of_mem (a := e) ?_)
    rw [List.mem_filter]
    simp_all
  · intro hlen
    obtain ⟨e, he⟩ := List.exists_mem_of_ne_nil _ (List.length_pos.mp hlen)
    rw [List.mem_filter] at he
    refine ⟨e, ?_, ?_⟩
    · rw [List.mem_filter]
      simp_all
    · simp_all

/-- `on_conflict_detected` never touches the reminder stores, and adds
timeline entries only of the conflict type. -/
theorem on_conflict_detected_frame (s : Sys) (eid : Nat)
    (cids : List Nat) :
    (on_conflict_detected s eid cids).prefs = s.prefs
    ∧ (on_conflict_detected s eid cids).schedule = s.schedule
    ∧ ∀ eid' ty', ty' ≠ TimelineEntryType.conflict_detected →
        countType (on_conflict_detected s eid cids) eid' ty' =
          countType s eid' ty' := by
  unfold on_conflict_detected
  cases hE : eventsGet s eid with
  | none => exact ⟨rfl, rfl, fun _ _ _ => rfl⟩
  | some stored =>
    refine ⟨rfl, rfl, fun eid' ty' hty => ?_⟩
    calc countType _ eid' ty'
        = countType (addTimeline s eid .conflict_detected
            (.conflicting cids)) eid' ty' := rfl
      _ = countType s eid' ty' +
            (if eid = eid' ∧ TimelineEntryType.conflict_detected = ty'
              then 1 else 0) := countType_addTimeline ..
      _ = countType s eid' ty' := by simp [Ne.symm hty]

/-- C2 (code bug): confirming a pending one-off proposal against an
empty event store does produce exactly one Created and one
ReminderScheduled timeline entry, but the stored event's status after
the `EventCreated` dispatch is Draft, not Confirmed: `confirm_proposed_event`
passes `is_confirmed=True` to an `Event` model that has no such field
(pydantic drops the unknown keyword, leaving the declared default
`draft`), and no handler on the no-conflict path sets the status.  The
repository's own test asserts Confirmed here
(`test_api_event_lifecycle_confirm_share_remind`). -/
theorem confirm_flow_leaves_status_draft :
    ∃ s' eid, confirm_proposed_event c2sys 0 c2proposed = .ok (s', eid)
      ∧ (eventsGet s' eid).map Event.status = some .draft
      ∧ (eventsGet s' eid).map Event.status ≠ some .confirmed
      ∧ countType s' eid .created = 1
      ∧ countType s' eid .reminder_scheduled = 1 := by
  refine ⟨_, _, rfl, ?_, ?_, ?_, ?_⟩ <;> decide

/-- C3: when the event's timeline already holds a ConflictDetected
entry, a further `EventCreated` dispatch adds no ConflictDetected entry
for it and stores no new pending proposal — the guard skips the conflict
re-check entirely. -/
theorem event_created_skips_conflict_recheck (s : Sys) (eid : Nat)
    (offs : Option (List Int))
    (h : (timelineForEvent s eid).any
      (fun e => e.type = TimelineEntryType.conflict_detected) = true) :
    countType (publish s (.eventCreated eid offs)) eid
        .conflict_detected = countType s eid .conflict_detected
    ∧ (publish s (.eventCreated eid offs)).parseResponses =
        s.parseResponses := by
  have hpos : 0 < countType s eid .conflict_detected := by
    rw [timelineForEvent_guard] at h
    exact of_decide_eq_true h
  suffices h' :
      countType (on_event_created s eid offs) eid .conflict_detected =
        countType s eid .conflict_detected
      ∧ (on_event_created s eid offs).parseResponses =
          s.parseResponses from h'
  unfold on_event_created
  cases hE : eventsGet s eid with
  | none => exact ⟨rfl, rfl⟩
  | some stored =>
    have hguard : ((timelineForEvent
        (scheduledState s eid stored.start_time (resolveOffsets offs))
          eid).any
        fun e => e.type = TimelineEntryType.conflict_detected) = true := by
      rw [timelineForEvent_guard, decide_eq_true_eq,
        countType_scheduledState]
      omega
    simp only [hguard, if_true]
    refine ⟨?_, scheduledState_parseResponses ..⟩
    rw [countType_scheduledState]
    simp

/-- Witness for C3: a state whose timeline already records a conflict
for the stored event. -/
theorem event_created_skips_conflict_recheck_witness :
    countType (publish c3sys (.eventCreated 1 none)) 1
        .conflict_detected = countType c3sys 1 .conflict_detected
    ∧ (publish c3sys (.eventCreated 1 none)).parseResponses =
        c3sys.parseResponses :=
  event_created_skips_conflict_recheck c3sys 1 none (by decide)

/-- C9: every lifecycle handler is a no-op — every store unchanged,
nothing raised — when the dispatched domain event names an id absent
from the event store. -/
theorem handlers_unknown_id_noop (s : Sys) (eid : Nat)
    (offs : Option (List Int)) (cids : List Nat) (targets : List String)
    (iid : Nat) (t : Int) (h : eventsGet s eid = none) :
    publish s (.eventCreated eid offs) = s
    ∧ publish s (.conflictDetected eid cids) = s
    ∧ publish s (.eventShared eid targets) = s
    ∧ publish s (.eventConfirmed eid) = s
    ∧ publish s (.reminderSent eid iid t) = s := by
  suffices h' :
      on_event_created s eid offs = s
      ∧ on_conflict_detected s eid cids = s
      ∧ on_event_shared s eid targets = s
      ∧ on_event_confirmed s eid = s
      ∧ on_reminder_sent s eid iid t = s from h'
  unfold on_event_created on_conflict_detected on_event_shared
    on_event_confirmed on_reminder_sent
  rw [h]
  exact ⟨rfl, rfl, rfl, rfl, rfl⟩

/-- Witness for C9 at a concrete state and an id it does not hold. -/
theorem handlers_unknown_id_noop_witness :
    publish c2sys (.eventCreated 42 none) = c2sys
    ∧ publish c2sys (.conflictDetected 42 []) = c2sys
    ∧ publish c2sys (.eventShared 42 []) = c2sys
    ∧ publish c2sys (.eventConfirmed 42) = c2sys
    ∧ publish c2sys (.reminderSent 42 0 0) = c2sys :=
  handlers_unknown_id_noop c2sys 42 none [] [] 0 0 rfl

/-- C10: dispatching `EventCreated` on a stored event always runs
reminder scheduling — one preference and one schedule item triggering at
`start − offset` per resolved offset (`[720, 30]` when none are
carried), in offset order, plus one Created and one ReminderScheduled
timeline entry — with no hypothesis on the reminders-scheduled flag, so
a repeated dispatch duplicates all of them. -/
theorem event_created_always_schedules (s : Sys) (eid : Nat)
    (offs : Option (List Int)) (E : Event)
    (hE : eventsGet s eid = some E) :
    resolveOffsets none = [720, 30]
    ∧ (((publish s (.eventCreated eid offs)).prefs.filter
        fun p => p.event_id = eid).map fun p => p.offset_minutes) =
      ((s.prefs.filter fun p => p.event_id = eid).map
        fun p => p.offset_minutes) ++ resolveOffsets offs
    ∧ (((publish s (.eventCreated eid offs)).schedule.filter
        fun i => i.event_id = eid).map fun i => i.trigger_time) =
      ((s.schedule.filter fun i => i.event_id = eid).map
        fun i => i.trigger_time) ++
        (resolveOffsets offs).map (fun o => E.start_time - o)
    ∧ countType (publish s (.eventCreated eid offs)) eid .created =
        countType s eid .created + 1
    ∧ countType (publish s (.eventCreated eid offs)) eid
        .reminder_scheduled =
        countType s eid .reminder_scheduled + 1 := by
  refine ⟨rfl, ?_⟩
  suffices h' :
      (((on_event_created s eid offs).prefs.filter
          fun p => p.event_id = eid).map fun p => p.offset_minutes) =
        ((s.prefs.filter fun p => p.event_id = eid).map
          fun p => p.offset_minutes) ++ resolveOffsets offs
      ∧ (((on_event_created s eid offs).schedule.filter
          fun i => i.event_id = eid).map fun i => i.trigger_time) =
        ((s.schedule.filter fun i => i.event_id = eid).map
          fun i => i.trigger_time) ++
          (resolveOffsets offs).map (fun o => E.start_time - o)
      ∧ countType (on_event_created s eid offs) eid .created =
          countType s eid .created + 1
      ∧ countType (on_event_created s eid offs) eid
          .reminder_scheduled =
          countType s eid .reminder_scheduled + 1 from h'
  unfold on_event_created
  simp only [hE]
  have base :
      ∀ t : Sys, t = scheduledState s eid E.start_time
          (resolveOffsets offs) →
        ((t.prefs.filter fun p => p.event_id = eid).map
            fun p => p.offset_minutes) =
          ((s.prefs.filter fun p => p.event_id = eid).map
            fun p => p.offset_minutes) ++ resolveOffsets offs
        ∧ ((t.schedule.filter fun i => i.event_id = eid).map
            fun i => i.trigger_time) =
          ((s.schedule.filter fun i => i.event_id = eid).map
            fun i => i.trigger_time) ++
            (resolveOffsets offs).map (fun o => E.start_time - o)
        ∧ countType t eid .created = countType s eid .created + 1
        ∧ countType t eid .reminder_scheduled =
            countType s eid .reminder_scheduled + 1 := by
    rintro t rfl
    refine ⟨scheduledState_prefs .., scheduledState_schedule .., ?_, ?_⟩
      <;> rw [countType_scheduledState] <;> simp
  split_ifs with h1 h2
  · exact base _ rfl
  · exact base _ rfl
  · obtain ⟨hp, hs, hc⟩ := on_conflict_detected_frame
      (scheduledState s eid E.start_time (resolveOffsets offs)) eid
      ((find_conflicts E.start_time E.end_time
        ((scheduledState s eid E.start_time
          (resolveOffsets offs)).events.filter
            fun e => e.id ≠ eid)).map fun c => c.id)
    rw [hp, hs, hc _ _ (by simp), hc _ _ (by simp)]
    exact base _ rfl

/-- Witness for C10: the dispatch on a concretely stored event. -/
theorem event_created_always_schedules_witness :
    resolveOffsets none = [720, 30]
    ∧ (((publish c6sys (.eventCreated 1 none)).prefs.filter
        fun p => p.event_id = 1).map fun p => p.offset_minutes) =
      ((c6sys.prefs.filter fun p => p.event_id = 1).map
        fun p => p.offset_minutes) ++ resolveOffsets none
    ∧ (((publish c6sys (.eventCreated 1 none)).schedule.filter
        fun i => i.event_id = 1).map fun i => i.trigger_time) =
      ((c6sys.schedule.filter fun i => i.event_id = 1).map
        fun i => i.trigger_time) ++
        (resolveOffsets none).map (fun o => wEvent.start_time - o)
    ∧ countType (publish c6sys (.eventCreated 1 none)) 1 .created =
        countType c6sys 1 .created + 1
    ∧ countType (publish c6sys (.eventCreated 1 none)) 1
        .reminder_scheduled =
        countType c6sys 1 .reminder_scheduled + 1 :=
  event_created_always_schedules c6sys 1 none wEvent rfl

/-- C6: dispatching `ConflictDetected` on a stored event appends one
ConflictDetected timeline entry carrying the conflicting ids, sets the
status to Conflicted, and stores exactly one new pending proposal
mirroring the event, linked back to it, with the single "time" Ambiguity
whose reason lists one description per conflicting id and whose options
are exactly Keep both / Cancel this event.  The hypothesis
`E.start_time < E.end_time` is the `Event` model's own invariant, which
the re-validated `ProposedEvent` construction relies on. -/
theorem conflict_detected_effects (s : Sys) (eid : Nat)
    (cids : List Nat) (E : Event) (hE : eventsGet s eid = some E)
    (hvalid : E.start_time < E.end_time) :
    eventsGet (publish s (.conflictDetected eid cids)) eid =
      some { E with status := .conflicted }
    ∧ (∃ e, (publish s (.conflictDetected eid cids)).timeline =
        s.timeline ++ [e] ∧ e.event_id = eid
        ∧ e.type = .conflict_detected ∧ e.payload = .conflicting cids)
    ∧ (∃ pr, (publish s (.conflictDetected eid cids)).parseResponses =
        s.parseResponses ++ [pr]
        ∧ pr.status = .pending
        ∧ pr.event_id = some eid
        ∧ pr.proposed_event =
            { title := E.title, start_time := E.start_time,
              end_time := E.end_time, location := E.location,
              notes := E.notes }
        ∧ pr.proposed_event.start_time < pr.proposed_event.end_time
        ∧ pr.ambiguities =
            [{ field := "time",
               reason := "Conflicts with: " ++ String.intercalate ", "
                 (cids.map (conflictDescription s)),
               options := ["Keep both", "Cancel this event"] }]) := by
  suffices h' :
      eventsGet (on_conflict_detected s eid cids) eid =
        some { E with status := .conflicted }
      ∧ (∃ e, (on_conflict_detected s eid cids).timeline =
          s.timeline ++ [e] ∧ e.event_id = eid
          ∧ e.type = .conflict_detected ∧ e.payload = .conflicting cids)
      ∧ (∃ pr, (on_conflict_detected s eid cids).parseResponses =
          s.parseResponses ++ [pr]
          ∧ pr.status = .pending
          ∧ pr.event_id = some eid
          ∧ pr.proposed_event =
              { title := E.title, start_time := E.start_time,
                end_time := E.end_time, location := E.location,
                notes := E.notes }
          ∧ pr.proposed_event.start_time < pr.proposed_event.end_time
          ∧ pr.ambiguities =
              [{ field := "time",
                 reason := "Conflicts with: " ++ String.intercalate ", "
                   (cids.map (conflictDescription s)),
                 options := ["Keep both", "Cancel this event"] }]) from h'
  unfold on_conflict_detected
  simp only [hE]
  refine ⟨?_, ⟨_, rfl, rfl, rfl, rfl⟩, ⟨_, rfl, rfl, rfl, rfl, hvalid, ?_⟩⟩
  · have h1 : eventsGet (addTimeline s eid .conflict_detected
        (.conflicting cids)) eid = some E := hE
    have h2 : eventsGet (eventsUpdate (addTimeline s eid
        .conflict_detected (.conflicting cids)) eid
          (fun e => { e with status := .conflicted })) eid =
        some { E with status := .conflicted } := by
      rw [eventsGet_eventsUpdate _ eid
        (fun e => { e with status := .conflicted }) (fun e => rfl), h1]
      simp [eventsGet_id hE]
    exact h2
  · have hfun : conflictDescription
        (eventsUpdate (addTimeline s eid .conflict_detected
          (.conflicting cids)) eid
            (fun e => { e with status := .conflicted })) =
        conflictDescription s :=
      funext fun cid => conflictDescription_eventsUpdate _ eid
        (fun e => { e with status := .conflicted })
        (fun e => rfl) (fun e => rfl) cid
    rw [hfun]

/-- Witness for C6: the two overlapping fixture events plus a deleted
id. -/
theorem conflict_detected_effects_witness :
    eventsGet (publish c6sys (.conflictDetected 1 [2, 99])) 1 =
      some { wEvent with status := .conflicted }
    ∧ (∃ e, (publish c6sys (.conflictDetected 1 [2, 99])).timeline =
        c6sys.timeline ++ [e] ∧ e.event_id = 1
        ∧ e.type = .conflict_detected ∧ e.payload = .conflicting [2, 99])
    ∧ (∃ pr, (publish c6sys
          (.conflictDetected 1 [2, 99])).parseResponses =
        c6sys.parseResponses ++ [pr]
        ∧ pr.status = .pending
        ∧ pr.event_id = some 1
        ∧ pr.proposed_event =
            { title := wEvent.title, start_time := wEvent.start_time,
              end_time := wEvent.end_time, location := wEvent.location,
              notes := wEvent.notes }
        ∧ pr.proposed_event.start_time < pr.proposed_event.end_time
        ∧ pr.ambiguities =
            [{ field := "time",
               reason := "Conflicts with: " ++ String.intercalate ", "
                 ([2, 99].map (conflictDescription c6sys)),
               options := ["Keep both", "Cancel this event"] }]) :=
  conflict_detected_effects c6sys 1 [2, 99] wEvent rfl (by decide)

/-- Marking a schedule item sent leaves no unsent copy of its id, given
ids are unique in the store (they are `uuid4` values in the source). -/
theorem markSentList_marks (iid : Nat) (T : Int) :
    ∀ (l : List ReminderScheduleItem),
      (l.filter fun i => i.id = iid).length ≤ 1 →
      ∀ j ∈ markSentList l iid T, j.id = iid → j.was_sent = true := by
  intro l
  induction l with
  | nil => intro _ j hj; simp [markSentList] at hj
  | cons i rest ih =>
    intro huniq j hj hjid
    by_cases hi : i.id = iid
    · rw [markSentList, if_pos hi] at hj
      rcases List.mem_cons.mp hj with rfl | hj
      · rfl
      · exfalso
        have hlen : (List.filter (fun k => k.id = iid)
            (i :: rest)).length ≤ 1 := huniq
        rw [List.filter_cons_of_pos (by simp [hi])] at hlen
        simp only [List.length_cons] at hlen
        have hrest : (rest.filter fun k => k.id = iid).length = 0 := by
          omega
        have : j ∈ rest.filter fun k => k.id = iid :=
          List.mem_filter.mpr ⟨hj, by simp [hjid]⟩
        rw [List.length_eq_zero.mp hrest] at this
        exact absurd this (List.not_mem_nil j)
    · rw [markSentList, if_neg hi] at hj
      rcases List.mem_cons.mp hj with rfl | hj
      · exact absurd hjid hi
      · refine ih ?_ j hj hjid
        rw [List.filter_cons_of_neg (by simp [hi])] at huniq
        exact huniq

/-- C8: dispatching `ReminderSent` for a schedule item of a stored event
marks the item sent (so no subsequent `list_due` at any time from the
sent-at on returns it), records the item and timestamp on the event,
sets its status to Reminded, and appends one ReminderSent timeline entry
naming the item. -/
theorem reminder_sent_effects (s : Sys) (eid iid : Nat) (T : Int)
    (E : Event) (item : ReminderScheduleItem)
    (hE : eventsGet s eid = some E)
    (hmem : item ∈ s.schedule) (hid : item.id = iid)
    (hev : item.event_id = eid)
    (huniq : (s.schedule.filter fun i => i.id = iid).length ≤ 1) :
    (∀ now, T ≤ now →
      ∀ j ∈ list_due (publish s (.reminderSent eid iid T)) now,
        j.id ≠ iid)
    ∧ eventsGet (publish s (.reminderSent eid iid T)) eid =
        some ({ E with
          last_reminder_sent_id := some iid,
          reminder_last_sent_at := some T, status := .reminded })
    ∧ (∃ e, (publish s (.reminderSent eid iid T)).timeline =
        s.timeline ++ [e] ∧ e.event_id = eid
        ∧ e.type = .reminder_sent ∧ e.payload = .sentItem iid) := by
  suffices h' :
      (∀ now, T ≤ now →
        ∀ j ∈ list_due (on_reminder_sent s eid iid T) now, j.id ≠ iid)
      ∧ eventsGet (on_reminder_sent s eid iid T) eid =
          some ({ E with
            last_reminder_sent_id := some iid,
            reminder_last_sent_at := some T, status := .reminded })
      ∧ (∃ e, (on_reminder_sent s eid iid T).timeline =
          s.timeline ++ [e] ∧ e.event_id = eid
          ∧ e.type = .reminder_sent ∧ e.payload = .sentItem iid) from h'
  unfold on_reminder_sent
  simp only [hE]
  refine ⟨?_, ?_, ⟨_, rfl, rfl, rfl, rfl⟩⟩
  · intro now _ j hj hjid
    have hj' : j ∈ markSentList s.schedule iid T
        ∧ (!j.was_sent && decide (j.trigger_time ≤ now)) = true := by
      have : j ∈ (markSentList s.schedule iid T).filter
          (fun i => !i.was_sent && i.trigger_time ≤ now) := hj
      exact List.mem_filter.mp this
    have hsent := markSentList_marks iid T s.schedule huniq j hj'.1 hjid
    have := hj'.2
    rw [hsent] at this
    simp at this
  · have h1 : eventsGet ({ s with
        schedule := markSentList s.schedule iid T } : Sys) eid =
        some E := hE
    have h2 : eventsGet (eventsUpdate ({ s with
        schedule := markSentList s.schedule iid T } : Sys) eid
          (fun e => { e with
            last_reminder_sent_id := some iid,
            reminder_last_sent_at := some T,
            status := .reminded })) eid =
        some ({ E with
          last_reminder_sent_id := some iid,
          reminder_last_sent_at := some T, status := .reminded }) := by
      rw [eventsGet_eventsUpdate _ eid
        (fun e => { e with
          last_reminder_sent_id := some iid,
          reminder_last_sent_at := some T, status := .reminded })
        (fun e => rfl), h1]
      simp [eventsGet_id hE]
    exact h2

/-- Witness for C8: the fixture event and its one schedule item, sent at
time 945. -/
theorem reminder_sent_effects_witness :
    (∀ now, (945 : Int) ≤ now →
      ∀ j ∈ list_due (publish c8sys (.reminderSent 1 3 945)) now,
        j.id ≠ 3)
    ∧ eventsGet (publish c8sys (.reminderSent 1 3 945)) 1 =
        some ({ wEvent with
          last_reminder_sent_id := some 3,
          reminder_last_sent_at := some 945, status := .reminded })
    ∧ (∃ e, (publish c8sys (.reminderSent 1 3 945)).timeline =
        c8sys.timeline ++ [e] ∧ e.event_id = 1
        ∧ e.type = .reminder_sent ∧ e.payload = .sentItem 3) :=
  reminder_sent_effects c8sys 1 3 945 wEvent wItem rfl (by decide) rfl
    rfl (by decide)

/-- C5 as amended: for every start time, the phrase "every other
Thursday" with no end phrase yields exactly two Ambiguities — one on
`begin_recurrence` offering exactly the two candidate anchor dates (the
literal first occurrence and the occurrence one week later), and one on
`end_recurrence_description` whose options are exactly
`["Add an end date", "Repeat indefinitely"]`. -/
theorem recurrence_ambiguities_every_other (start_time : Int) :
    recurrence_ambiguities (some "every other Thursday") none start_time =
      [{ field := "begin_recurrence",
         reason := "\"every other Thursday\" implies an interval but " ++
           "the starting week is not specified",
         options := [strftimeFullDate start_time,
           strftimeFullDate (start_time + 7 * 1440)] },
       { field := "end_recurrence_description",
         reason := "Recurring event has no end date specified",
         options := ["Add an end date", "Repeat indefinitely"] }] := by
  rfl

end EventLifecycle
